import Mathlib

/-!
# osu-audio-rankablizer: the quality search of `main.go`

A shallow embedding of `src/main.go`.

* `float64` values are the values of IEEE 754 binary64 (`F64`): the finite
  ones as rationals, the two infinities, NaN and the negative zero.  The
  operations round to nearest, ties to even, as Go does.
* `main`, `getBitrate`, `getDurationSeconds` and the loop as the program runs
  it (namespace `Float64`) are stated over `F64`.
* The loop is stated a second time with `float64` read as exact rationals
  (`Search`, `estimate`, `narrow`, `loopBody`, `searchLoop`, `search`): the
  idealisation that the statements in exact rational arithmetic are about.
* `int64` arithmetic wraps (`wrapInt64`).
* The outside world (ffprobe, ffmpeg, the file system) is a record of
  functions, `World`; the mutable part of it is `Sys`.
* Panics are the `Except.error` results of type `Fatal`.
* The `for` loop of `main` takes a fuel argument that bounds the number of
  executions of its body; `none` means the fuel ran out before the guard
  became false.
-/

namespace Rankablizer

/-! ## Binary64 arithmetic -/

/-- A `float64` value: a finite value as the rational it denotes (positive
zero is `finite 0`), the negative zero, the infinities, or NaN. -/
inductive F64 where
  | finite (x : ℚ)
  | negZero
  | posInf
  | negInf
  | nan
deriving DecidableEq, Repr

/-- The power `2 ^ e` for an integer exponent. -/
def pow2 (e : ℤ) : ℚ :=
  if 0 ≤ e then ((2 ^ e.toNat : ℕ) : ℚ) else 1 / ((2 ^ (-e).toNat : ℕ) : ℚ)

/-- The number of binary digits of `n`; the fuel is any number `≥ n`. -/
def bitLength : ℕ → ℕ → ℕ
  | 0, _ => 0
  | fuel + 1, n => if n = 0 then 0 else bitLength fuel (n / 2) + 1

/-- The integer `e` with `2 ^ e ≤ a < 2 ^ (e + 1)`, for a positive rational. -/
def ilog2 (a : ℚ) : ℤ :=
  let e0 : ℤ := (bitLength a.num.natAbs a.num.natAbs : ℤ) - (bitLength a.den a.den : ℤ)
  if a < pow2 e0 then e0 - 1 else e0

/-- The integer nearest to a non-negative rational, ties to the even one. -/
def roundHalfEven (x : ℚ) : ℤ :=
  let f := ⌊x⌋
  let r := x - f
  if r < 1 / 2 then f else if 1 / 2 < r then f + 1 else if f % 2 = 0 then f else f + 1

namespace F64

/-- The binary64 value nearest to a rational, ties to even: 53 significant
bits, exponents from -1022 (below it the spacing stays `2 ^ -1074`), overflow
to an infinity from `2 ^ 1024` on, and the sign kept when the result is zero. -/
def round (q : ℚ) : F64 :=
  if q = 0 then finite 0
  else
    let a := |q|
    let e := max (ilog2 a) (-1022)
    let u := pow2 (e - 52)
    let k := roundHalfEven (a / u)
    let r := (k : ℚ) * u
    if pow2 1024 ≤ r then (if q < 0 then negInf else posInf)
    else if k = 0 then (if q < 0 then negZero else finite 0)
    else finite (if q < 0 then -r else r)

/-- The conversion `float64(n)` of an integer. -/
def ofInt (n : ℤ) : F64 := round n

instance (n : ℕ) : OfNat F64 n := ⟨round n⟩

/-- The rational a finite value denotes; 0 for the other values. -/
def toRat : F64 → ℚ
  | finite x => x
  | _ => 0

/-- The sign bit. -/
def isNeg : F64 → Bool
  | finite x => decide (x < 0)
  | negZero => true
  | negInf => true
  | _ => false

/-- Whether the value is one of the two zeros. -/
def isZero : F64 → Bool
  | finite x => decide (x = 0)
  | negZero => true
  | _ => false

/-- Whether the value is one of the two infinities. -/
def isInf : F64 → Bool
  | posInf => true
  | negInf => true
  | _ => false

/-- The zero of the given sign. -/
def signedZero (negative : Bool) : F64 := if negative then negZero else finite 0

/-- The infinity of the given sign. -/
def signedInf (negative : Bool) : F64 := if negative then negInf else posInf

/-- The negation `-a`. -/
def neg : F64 → F64
  | finite x => if x = 0 then negZero else finite (-x)
  | negZero => finite 0
  | posInf => negInf
  | negInf => posInf
  | nan => nan

/-- The sum `a + b`. -/
def add : F64 → F64 → F64
  | nan, _ => nan
  | _, nan => nan
  | posInf, negInf => nan
  | negInf, posInf => nan
  | posInf, _ => posInf
  | _, posInf => posInf
  | negInf, _ => negInf
  | _, negInf => negInf
  | negZero, negZero => negZero
  | negZero, finite y => finite y
  | finite x, negZero => finite x
  | finite x, finite y => round (x + y)

/-- The difference `a - b`. -/
def sub (a b : F64) : F64 := add a (neg b)

/-- The product `a * b`. -/
def mul (a b : F64) : F64 :=
  match a, b with
  | nan, _ => nan
  | _, nan => nan
  | a, b =>
    let negative := xor a.isNeg b.isNeg
    if a.isInf || b.isInf then
      if a.isZero || b.isZero then nan else signedInf negative
    else if a.isZero || b.isZero then signedZero negative
    else round (a.toRat * b.toRat)

/-- The quotient `a / b`: a division by a zero gives an infinity, or NaN when
the dividend is a zero as well. -/
def div (a b : F64) : F64 :=
  match a, b with
  | nan, _ => nan
  | _, nan => nan
  | a, b =>
    let negative := xor a.isNeg b.isNeg
    if a.isInf then (if b.isInf then nan else signedInf negative)
    else if b.isInf then signedZero negative
    else if b.isZero then (if a.isZero then nan else signedInf negative)
    else if a.isZero then signedZero negative
    else round (a.toRat / b.toRat)

/-- The comparison `a < b`; false when either side is NaN. -/
def lt : F64 → F64 → Bool
  | nan, _ => false
  | _, nan => false
  | posInf, _ => false
  | _, negInf => false
  | negInf, _ => true
  | _, posInf => true
  | a, b => decide (a.toRat < b.toRat)

/-- The comparison `a <= b`; false when either side is NaN. -/
def le : F64 → F64 → Bool
  | nan, _ => false
  | _, nan => false
  | negInf, _ => true
  | _, posInf => true
  | posInf, _ => false
  | _, negInf => false
  | a, b => decide (a.toRat ≤ b.toRat)

instance : Add F64 := ⟨add⟩

instance : Sub F64 := ⟨sub⟩

instance : Mul F64 := ⟨mul⟩

instance : Div F64 := ⟨div⟩

instance : Neg F64 := ⟨neg⟩

instance : LT F64 := ⟨fun a b => lt a b = true⟩

instance : LE F64 := ⟨fun a b => le a b = true⟩

instance (a b : F64) : Decidable (a < b) := inferInstanceAs (Decidable (lt a b = true))

instance (a b : F64) : Decidable (a ≤ b) := inferInstanceAs (Decidable (le a b = true))

end F64

/-! ## Constants and configuration -/

/-- The constant `tmpDir` (main.go:12). -/
def tmpDir : String := "./.oar_tmp"

/-- The constant `tmpFile` (main.go:13). -/
def tmpFile : String := tmpDir ++ "/tmp.ogg"

/-- The constant `minInputBitrateBps` (main.go:14). -/
def minInputBitrateBps : ℤ := 192000

/-- The parsed command line, the variable `CLI` (main.go:16-22). -/
structure CLI where
  /-- Flag `-b`, in bps, default 208000. -/
  MaxBitrate : ℤ
  /-- Flag `-q`, default 0.000001. -/
  MaxQualityDifference : F64
  /-- Flag `-o`, default `output.ogg`. -/
  OutputPath : String
  /-- The positional argument. -/
  InputPath : String

/-- The defaults that the struct tags of `CLI` declare. -/
def defaultCLI (inputPath : String) : CLI :=
  ⟨208000, F64.round (1 / 1000000), "output.ogg", inputPath⟩

/-! ## The outside world -/

/-- A decoded JSON value (`interface{}` after `json.Unmarshal`). -/
inductive Json where
  | null
  | bool (b : Bool)
  | number (x : F64)
  | string (s : String)
  | array (xs : List Json)
  | object (fields : List (String × Json))

/-- The ways in which a run panics. -/
inductive Fatal where
  /-- The call `ffmpeg.Probe` returned an error (main.go:116-118). -/
  | probe
  /-- A type assertion of main.go:123 failed (a runtime panic). -/
  | typeAssertion
  /-- The call `os.Stat` returned an error (main.go:105-107). -/
  | fileInfo
  /-- The input bitrate is at most `minInputBitrateBps` (main.go:31-38). -/
  | inputBitrateTooLow
  /-- The encoder returned an error (main.go:86-88). -/
  | convert
  /-- The call `os.MkdirAll` returned an error (main.go:94-96). -/
  | mkdir
  /-- The call `os.Rename` returned an error (main.go:71-73). -/
  | rename
deriving DecidableEq, Repr

/-- The effects a run performs on its environment. -/
inductive Event where
  /-- The call `os.MkdirAll(tmpDir)`. -/
  | mkdirAll
  /-- One run of the encoder at the given quality. -/
  | convert (quality : F64)
  /-- The call `os.Rename(tmpFile, output)`. -/
  | rename
  /-- The call `os.RemoveAll(tmpDir)`. -/
  | removeAll
deriving DecidableEq, Repr

/-- The fixed part of the environment of one run. -/
structure World where
  /-- The output of `ffmpeg.Probe` on a path, decoded by `json.Unmarshal`:
  `none` when the probe returns an error, otherwise the top-level JSON object
  as a list of fields (empty when decoding failed: that error is not
  checked, and the map stays nil). -/
  probe : String → Option (List (String × Json))
  /-- The function `strconv.ParseFloat(s, 64)`: the value it returns and
  whether its error is nil. -/
  parseFloat : String → F64 × Bool
  /-- Whether `os.MkdirAll(tmpDir)` succeeds. -/
  mkdirAll : Bool
  /-- The encoder: the size in bytes of the file it writes for an input path
  and a quality, `none` when it returns an error. -/
  ffmpeg : String → F64 → Option ℤ
  /-- Whether `os.Rename(tmpFile, output)` succeeds. -/
  rename : Bool

/-- The mutable part of the environment. -/
structure Sys where
  /-- The effects performed so far, oldest first. -/
  events : List Event
  /-- The size in bytes of each file that exists (`os.Stat`). -/
  files : String → Option ℤ

/-! ## Probe / measure -/

/-- The two's complement wrap of a 64-bit signed integer. -/
def wrapInt64 (x : ℤ) : ℤ := (x + 2 ^ 63) % 2 ^ 64 - 2 ^ 63

/-- The function `getBitrate` (main.go:103-112): the `int64` product
`fileSize * 8` is converted to `float64` and divided by the duration in
`float64`. -/
def getBitrate (files : String → Option ℤ) (filePath : String) (durationSec : F64) :
    Except Fatal F64 :=
  match files filePath with
  | none => .error .fileInfo
  | some fileSize => .ok (F64.ofInt (wrapInt64 (fileSize * 8)) / durationSec)

/-- The function `getDurationSeconds` (main.go:114-126).  The error of
`json.Unmarshal` is overwritten and the error of `strconv.ParseFloat` is
discarded (`val, _ :=`), so the value of the latter is returned as it is. -/
def getDurationSeconds (w : World) (filePath : String) : Except Fatal F64 :=
  match w.probe filePath with
  | none => .error .probe
  | some jsonData =>
    match jsonData.lookup "format" with
    | some (.object format) =>
      match format.lookup "duration" with
      | some (.string s) => .ok (w.parseFloat s).1
      | _ => .error .typeAssertion
    | _ => .error .typeAssertion

/-! ## Workspace and encoder -/

/-- The function `convert` (main.go:78-89): the encoder overwrites `tmpFile`. -/
def convert (w : World) (inputPath : String) (quality : F64) (sys : Sys) :
    Except Fatal Unit × Sys :=
  let events := sys.events ++ [Event.convert quality]
  match w.ffmpeg inputPath quality with
  | none => (.error .convert, ⟨events, sys.files⟩)
  | some size => (.ok (), ⟨events, Function.update sys.files tmpFile (some size)⟩)

/-- The function `initWorkspace` (main.go:91-97). -/
def initWorkspace (w : World) (sys : Sys) : Except Fatal Unit × Sys :=
  let sys1 : Sys := ⟨sys.events ++ [Event.mkdirAll], sys.files⟩
  if w.mkdirAll then (.ok (), sys1) else (.error .mkdir, sys1)

/-- The function `clearWorkspace` (main.go:99-101); its error is dropped. -/
def clearWorkspace (sys : Sys) : Sys :=
  ⟨sys.events ++ [Event.removeAll], Function.update sys.files tmpFile none⟩

/-- The call `os.Rename(tmpFile, CLI.OutputPath)` with its check (main.go:70-73). -/
def moveOutput (w : World) (outputPath : String) (sys : Sys) : Except Fatal Unit × Sys :=
  let events := sys.events ++ [Event.rename]
  if w.rename then
    (.ok (), ⟨events,
      Function.update (Function.update sys.files tmpFile none) outputPath (sys.files tmpFile)⟩)
  else (.error .rename, ⟨events, sys.files⟩)

/-- One probe of the search: `convert(CLI.InputPath, q)` followed by
`getBitrate(tmpFile, durationSec)` (main.go:47-48, 50-51, 58-59). -/
def probeAt (w : World) (inputPath : String) (durationSec : F64) (quality : F64) (sys : Sys) :
    Except Fatal F64 × Sys :=
  match convert w inputPath quality sys with
  | (.error e, sys1) => (.error e, sys1)
  | (.ok _, sys1) => (getBitrate sys1.files tmpFile durationSec, sys1)

/-! ## The quality search, in `float64` -/

namespace Float64

/-- The local variables of `main` that the loop reads (main.go:40, 48, 51). -/
structure Search where
  qLow : F64
  qHigh : F64
  bitrateLow : F64
  bitrateHigh : F64
deriving DecidableEq, Repr

/-- The estimate `qEst` of main.go:54-56. -/
def estimate (s : Search) (maxBitrate : F64) : F64 :=
  let m := (s.qHigh - s.qLow) / (s.bitrateHigh - s.bitrateLow)
  let b := s.qLow - m * s.bitrateLow
  m * maxBitrate + b

/-- The branch of main.go:63-67: only `qHigh` or `qLow` is assigned. -/
def narrow (s : Search) (maxBitrate qEst bitrate : F64) : Search :=
  if bitrate > maxBitrate then { s with qHigh := qEst } else { s with qLow := qEst }

/-- The body of the loop (main.go:54-67), over any probe operation `measure`
acting on a state `σ`. -/
def loopBody {σ : Type} (measure : F64 → σ → Except Fatal F64 × σ) (maxBitrate : F64)
    (s : Search) (st : σ) : Except Fatal Search × σ :=
  let qEst := estimate s maxBitrate
  match measure qEst st with
  | (.error e, st1) => (.error e, st1)
  | (.ok bitrate, st1) => (.ok (narrow s maxBitrate qEst bitrate), st1)

/-- The loop of main.go:53-68.  The fuel bounds the number of executions of
the body; `none` means that the guard still held when the fuel ran out. -/
def searchLoop {σ : Type} (measure : F64 → σ → Except Fatal F64 × σ) (maxBitrate tol : F64) :
    ℕ → Search → σ → Option (Except Fatal Search × σ)
  | fuel, s, st =>
    if s.qHigh - s.qLow > tol then
      match fuel with
      | 0 => none
      | n + 1 =>
        match loopBody measure maxBitrate s st with
        | (.error e, st1) => some (.error e, st1)
        | (.ok s1, st1) => searchLoop measure maxBitrate tol n s1 st1
    else some (.ok s, st)

/-- The state after `n` executions of the loop body, the guard not consulted. -/
def loopIter {σ : Type} (measure : F64 → σ → Except Fatal F64 × σ) (maxBitrate : F64) :
    ℕ → Search → σ → Except Fatal Search × σ
  | 0, s, st => (.ok s, st)
  | n + 1, s, st =>
    match loopBody measure maxBitrate s st with
    | (.error e, st1) => (.error e, st1)
    | (.ok s1, st1) => loopIter measure maxBitrate n s1 st1

/-- The two probes at the fixed bounds 1 and 10 (main.go:40, 47-51). -/
def searchInit {σ : Type} (measure : F64 → σ → Except Fatal F64 × σ) (st : σ) :
    Except Fatal Search × σ :=
  let qLow : F64 := 1
  let qHigh : F64 := 10
  match measure qLow st with
  | (.error e, st1) => (.error e, st1)
  | (.ok bitrateLow, st1) =>
    match measure qHigh st1 with
    | (.error e, st2) => (.error e, st2)
    | (.ok bitrateHigh, st2) => (.ok ⟨qLow, qHigh, bitrateLow, bitrateHigh⟩, st2)

/-- The whole search, main.go:47-68. -/
def search {σ : Type} (measure : F64 → σ → Except Fatal F64 × σ) (maxBitrate tol : F64)
    (fuel : ℕ) (st : σ) : Option (Except Fatal Search × σ) :=
  match searchInit measure st with
  | (.error e, st1) => some (.error e, st1)
  | (.ok s, st1) => searchLoop measure maxBitrate tol fuel s st1

/-- The state after the two initial probes and `n` executions of the loop
body, the guard not consulted. -/
def searchIter {σ : Type} (measure : F64 → σ → Except Fatal F64 × σ) (maxBitrate : F64)
    (n : ℕ) (st : σ) : Except Fatal Search × σ :=
  match searchInit measure st with
  | (.error e, st1) => (.error e, st1)
  | (.ok s, st1) => loopIter measure maxBitrate n s st1

/-- A mock encoder: a total function from quality to measured bitrate.  Its
state is the list of the qualities it was asked to encode, newest first. -/
def mock (enc : F64 → F64) (quality : F64) (log : List F64) : Except Fatal F64 × List F64 :=
  (.ok (enc quality), quality :: log)

end Float64

/-! ## The quality search, in exact rational arithmetic

The same lines of `main.go` with `float64` read as `ℚ`. -/

/-- The local variables of `main` that the loop reads (main.go:40, 48, 51). -/
structure Search where
  qLow : ℚ
  qHigh : ℚ
  bitrateLow : ℚ
  bitrateHigh : ℚ
deriving DecidableEq, Repr

/-- The estimate `qEst` of main.go:54-56. -/
def estimate (s : Search) (maxBitrate : ℚ) : ℚ :=
  let m := (s.qHigh - s.qLow) / (s.bitrateHigh - s.bitrateLow)
  let b := s.qLow - m * s.bitrateLow
  m * maxBitrate + b

/-- The branch of main.go:63-67: only `qHigh` or `qLow` is assigned. -/
def narrow (s : Search) (maxBitrate qEst bitrate : ℚ) : Search :=
  if bitrate > maxBitrate then { s with qHigh := qEst } else { s with qLow := qEst }

/-- The body of the loop (main.go:54-67), over any probe operation `measure`
acting on a state `σ`. -/
def loopBody {σ : Type} (measure : ℚ → σ → Except Fatal ℚ × σ) (maxBitrate : ℚ)
    (s : Search) (st : σ) : Except Fatal Search × σ :=
  let qEst := estimate s maxBitrate
  match measure qEst st with
  | (.error e, st1) => (.error e, st1)
  | (.ok bitrate, st1) => (.ok (narrow s maxBitrate qEst bitrate), st1)

/-- The loop of main.go:53-68.  The fuel bounds the number of executions of
the body; `none` means that the guard still held when the fuel ran out. -/
def searchLoop {σ : Type} (measure : ℚ → σ → Except Fatal ℚ × σ) (maxBitrate tol : ℚ) :
    ℕ → Search → σ → Option (Except Fatal Search × σ)
  | fuel, s, st =>
    if s.qHigh - s.qLow > tol then
      match fuel with
      | 0 => none
      | n + 1 =>
        match loopBody measure maxBitrate s st with
        | (.error e, st1) => some (.error e, st1)
        | (.ok s1, st1) => searchLoop measure maxBitrate tol n s1 st1
    else some (.ok s, st)

/-- The state after `n` executions of the loop body, the guard not consulted. -/
def loopIter {σ : Type} (measure : ℚ → σ → Except Fatal ℚ × σ) (maxBitrate : ℚ) :
    ℕ → Search → σ → Except Fatal Search × σ
  | 0, s, st => (.ok s, st)
  | n + 1, s, st =>
    match loopBody measure maxBitrate s st with
    | (.error e, st1) => (.error e, st1)
    | (.ok s1, st1) => loopIter measure maxBitrate n s1 st1

/-- The two probes at the fixed bounds 1 and 10 (main.go:40, 47-51). -/
def searchInit {σ : Type} (measure : ℚ → σ → Except Fatal ℚ × σ) (st : σ) :
    Except Fatal Search × σ :=
  let qLow : ℚ := 1
  let qHigh : ℚ := 10
  match measure qLow st with
  | (.error e, st1) => (.error e, st1)
  | (.ok bitrateLow, st1) =>
    match measure qHigh st1 with
    | (.error e, st2) => (.error e, st2)
    | (.ok bitrateHigh, st2) => (.ok ⟨qLow, qHigh, bitrateLow, bitrateHigh⟩, st2)

/-- The whole search, main.go:47-68. -/
def search {σ : Type} (measure : ℚ → σ → Except Fatal ℚ × σ) (maxBitrate tol : ℚ)
    (fuel : ℕ) (st : σ) : Option (Except Fatal Search × σ) :=
  match searchInit measure st with
  | (.error e, st1) => some (.error e, st1)
  | (.ok s, st1) => searchLoop measure maxBitrate tol fuel s st1

/-- A mock encoder: a total function from quality to measured bitrate.  Its
state is the list of the qualities it was asked to encode, newest first, so
the head of the list is the quality of the artifact in `tmpFile`. -/
def mock (enc : ℚ → ℚ) (quality : ℚ) (log : List ℚ) : Except Fatal ℚ × List ℚ :=
  (.ok (enc quality), quality :: log)

/-! ## The driver -/

/-- The body of `main` (main.go:27-75) without the deferred call. -/
def mainBody (fuel : ℕ) (w : World) (cli : CLI) (sys : Sys) :
    Option (Except Fatal Unit × Sys) :=
  match getDurationSeconds w cli.InputPath with
  | .error e => some (.error e, sys)
  | .ok inputDuration =>
    match getBitrate sys.files cli.InputPath inputDuration with
    | .error e => some (.error e, sys)
    | .ok inputBitrate =>
      if inputBitrate ≤ F64.ofInt minInputBitrateBps then
        some (.error .inputBitrateTooLow, sys)
      else
        let maxBitrate : F64 := F64.ofInt cli.MaxBitrate
        match initWorkspace w sys with
        | (.error e, sys1) => some (.error e, sys1)
        | (.ok _, sys1) =>
          match getDurationSeconds w cli.InputPath with
          | .error e => some (.error e, sys1)
          | .ok durationSec =>
            match Float64.search (probeAt w cli.InputPath durationSec) maxBitrate
                cli.MaxQualityDifference fuel sys1 with
            | none => none
            | some (.error e, sys2) => some (.error e, sys2)
            | some (.ok _, sys2) => some (moveOutput w cli.OutputPath sys2)

/-- The function `main` (main.go:24-76): the deferred `clearWorkspace` runs
after the body, whether it returned or panicked. -/
def main (fuel : ℕ) (w : World) (cli : CLI) (sys : Sys) : Option (Except Fatal Unit × Sys) :=
  (mainBody fuel w cli sys).map fun r => (r.1, clearWorkspace r.2)

/-! ## Encoders used in the examples -/

/-- The mock encoder of the convergence test: `bitrate(q) = 1000000 / q`. -/
def inverseEncoder (q : ℚ) : ℚ := 1000000 / q

/-- A strictly increasing linear encoder: 192 kbps at quality 1, 336 kbps at
quality 10. -/
def linearEncoder (q : ℚ) : ℚ := 16000 * q + 176000

/-- A linear encoder in `float64`: 163840 bps at quality 1 and 311296 bps at
quality 10. -/
def stuckEncoder (q : F64) : F64 := 16384 * q + 147456

/-- The update of step 3d as the specification words it: the replaced
endpoint takes the bitrate of the new probe together with its quality. -/
def narrowSpec (s : Search) (maxBitrate qEst bitrate : ℚ) : Search :=
  if bitrate > maxBitrate then ⟨s.qLow, qEst, s.bitrateLow, bitrate⟩
  else ⟨qEst, s.qHigh, bitrate, s.bitrateHigh⟩

/-! ## A decimal parser for the examples -/

/-- The sign, the digits read as one natural number, and the number of digits
after the point, of a string of the form `[+-]digits[.digits]` with at least
one digit; `none` for every other string. -/
def decimalParts (s : String) : Option (Bool × ℕ × ℕ) :=
  let cs := s.toList
  let negative := cs.head? == some '-'
  let body := match cs with
    | '-' :: r => r
    | '+' :: r => r
    | r => r
  let whole := body.takeWhile Char.isDigit
  let fraction : Option (List Char) := match body.dropWhile Char.isDigit with
    | [] => some []
    | '.' :: r => some r
    | _ => none
  match fraction with
  | none => none
  | some f =>
    if f.all Char.isDigit && !(whole ++ f).isEmpty then
      some (negative, (whole ++ f).foldl (fun a c => 10 * a + (c.toNat - 48)) 0, f.length)
    else none

/-- A stand-in for `strconv.ParseFloat` on plain decimal strings, used to run
the examples: the value, rounded to `float64`, and whether the error is nil.
As `ParseFloat` does on a string that is not well formed, it then returns the
value 0. -/
def parseDecimal (s : String) : F64 × Bool :=
  match decimalParts s with
  | none => (F64.finite 0, false)
  | some (negative, digits, scale) =>
    (if digits = 0 then F64.signedZero negative
      else F64.round ((if negative then -1 else 1) * (digits : ℚ) / 10 ^ scale), true)

/-- An environment whose probe reports the given duration string for every
path, with the decimal parser above, an encoder that writes
`2048 * q + 18432` bytes (rounded down) at quality `q`, and no failing
operation. -/
def sampleWorld (duration : String) : World where
  probe := fun _ => some [("format", Json.object [("duration", Json.string duration)])]
  parseFloat := parseDecimal
  mkdirAll := true
  ffmpeg := fun _ q => some ⌊2048 * q.toRat + 18432⌋
  rename := true

/-- A file system that holds the input file `in.ogg` only, and no effects yet. -/
def sampleSys (size : ℤ) : Sys :=
  ⟨[], fun path => if path = "in.ogg" then some size else none⟩

/-- The bracket of the first iteration against `stuckEncoder`. -/
def stuckSearch : Float64.Search := ⟨1, 10, 163840, 311296⟩

/-- The command line `-b 163840 in.ogg`, the other flags at their defaults. -/
def stuckCLI : CLI := ⟨163840, F64.round (1 / 1000000), "output.ogg", "in.ogg"⟩

/-! ## Iterating the loop body against a mock encoder -/

/-- The state after the two initial probes and `n` executions of the loop
body (main.go:47-51, then `n` times main.go:54-67), the guard not consulted. -/
def searchIter {σ : Type} (measure : ℚ → σ → Except Fatal ℚ × σ) (maxBitrate : ℚ)
    (n : ℕ) (st : σ) : Except Fatal Search × σ :=
  match searchInit measure st with
  | (.error e, st1) => (.error e, st1)
  | (.ok s, st1) => loopIter measure maxBitrate n s st1

/-- One execution of the loop body against a mock encoder, which cannot fail:
the value of `loopBody (mock enc)` without the `Except` wrapper. -/
def mockStep (enc : ℚ → ℚ) (maxBitrate : ℚ) (p : Search × List ℚ) : Search × List ℚ :=
  (narrow p.1 maxBitrate (estimate p.1 maxBitrate) (enc (estimate p.1 maxBitrate)),
    estimate p.1 maxBitrate :: p.2)

/-- The locals and the encoder log after the two initial probes of a mock
encoder. -/
def mockStart (enc : ℚ → ℚ) : Search × List ℚ := (⟨1, 10, enc 1, enc 10⟩, [10, 1])

/-- The position of the target between the bitrates measured at qualities 1
and 10: `t = (target - b1) / (b10 - b1)`. -/
def targetRatio (enc : ℚ → ℚ) (target : ℚ) : ℚ := (target - enc 1) / (enc 10 - enc 1)

/-- The target lies strictly between the bitrates measured at qualities 1 and
10, in either order. -/
def Brackets (enc : ℚ → ℚ) (target : ℚ) : Prop :=
  (enc 1 < target ∧ target < enc 10) ∨ (enc 10 < target ∧ target < enc 1)

instance (enc : ℚ → ℚ) (target : ℚ) : Decidable (Brackets enc target) := by
  unfold Brackets
  infer_instance

/-- The bracket invariant of the loop against a mock encoder: the bitrates
are the two initial ones and the bracket lies in `[1, 10]` with
`qLow < qHigh`. -/
def BracketInv (enc : ℚ → ℚ) (s : Search) : Prop :=
  s.bitrateLow = enc 1 ∧ s.bitrateHigh = enc 10 ∧ 1 ≤ s.qLow ∧ s.qLow < s.qHigh ∧ s.qHigh ≤ 10

instance (enc : ℚ → ℚ) (s : Search) : Decidable (BracketInv enc s) := by
  unfold BracketInv
  infer_instance

/-! ## Basic facts about the loop -/

section Loop

variable {σ : Type} (measure : ℚ → σ → Except Fatal ℚ × σ) (maxBitrate tol : ℚ)

theorem searchLoop_done (fuel : ℕ) (s : Search) (st : σ) (h : s.qHigh - s.qLow ≤ tol) :
    searchLoop measure maxBitrate tol fuel s st = some (.ok s, st) := by
  unfold searchLoop
  rw [if_neg (not_lt.mpr h)]

theorem searchLoop_zero (s : Search) (st : σ) (h : tol < s.qHigh - s.qLow) :
    searchLoop measure maxBitrate tol 0 s st = none := by
  unfold searchLoop
  rw [if_pos h]

theorem searchLoop_succ (n : ℕ) (s : Search) (st : σ) (h : tol < s.qHigh - s.qLow) :
    searchLoop measure maxBitrate tol (n + 1) s st =
      match loopBody measure maxBitrate s st with
      | (.error e, st1) => some (.error e, st1)
      | (.ok s1, st1) => searchLoop measure maxBitrate tol n s1 st1 := by
  rw [searchLoop, if_pos h]

end Loop

theorem loopBody_mock (enc : ℚ → ℚ) (maxBitrate : ℚ) (s : Search) (log : List ℚ) :
    loopBody (mock enc) maxBitrate s log =
      (.ok (narrow s maxBitrate (estimate s maxBitrate) (enc (estimate s maxBitrate))),
        estimate s maxBitrate :: log) := rfl

theorem searchInit_mock (enc : ℚ → ℚ) (log : List ℚ) :
    searchInit (mock enc) log = (.ok ⟨1, 10, enc 1, enc 10⟩, 10 :: 1 :: log) := rfl

theorem search_mock (enc : ℚ → ℚ) (maxBitrate tol : ℚ) (fuel : ℕ) (log : List ℚ) :
    search (mock enc) maxBitrate tol fuel log =
      searchLoop (mock enc) maxBitrate tol fuel ⟨1, 10, enc 1, enc 10⟩ (10 :: 1 :: log) := rfl

theorem searchLoop_mock_succ (enc : ℚ → ℚ) (maxBitrate tol : ℚ) (n : ℕ) (s : Search)
    (log : List ℚ) (h : tol < s.qHigh - s.qLow) :
    searchLoop (mock enc) maxBitrate tol (n + 1) s log =
      searchLoop (mock enc) maxBitrate tol n
        (narrow s maxBitrate (estimate s maxBitrate) (enc (estimate s maxBitrate)))
        (estimate s maxBitrate :: log) := by
  rw [searchLoop_succ _ _ _ _ _ _ h, loopBody_mock]

theorem loopIter_mock_succ (enc : ℚ → ℚ) (maxBitrate : ℚ) (n : ℕ) (s : Search)
    (log : List ℚ) :
    loopIter (mock enc) maxBitrate (n + 1) s log =
      loopIter (mock enc) maxBitrate n
        (narrow s maxBitrate (estimate s maxBitrate) (enc (estimate s maxBitrate)))
        (estimate s maxBitrate :: log) := by
  rw [loopIter, loopBody_mock]

theorem estimate_eq (s : Search) (maxBitrate : ℚ) (h : s.bitrateLow ≠ s.bitrateHigh) :
    estimate s maxBitrate =
      s.qLow + (maxBitrate - s.bitrateLow) / (s.bitrateHigh - s.bitrateLow) *
        (s.qHigh - s.qLow) := by
  have hne : s.bitrateHigh - s.bitrateLow ≠ 0 := sub_ne_zero.mpr (Ne.symm h)
  unfold estimate
  field_simp
  ring

theorem wrapInt64_eq (x : ℤ) (hlo : -2 ^ 63 ≤ x) (hhi : x < 2 ^ 63) : wrapInt64 x = x := by
  unfold wrapInt64
  have h : (x + 2 ^ 63) % 2 ^ 64 = x + 2 ^ 63 :=
    Int.emod_eq_of_lt (by linarith) (by linarith)
  rw [h]
  ring

theorem loopIter_mock (enc : ℚ → ℚ) (maxBitrate : ℚ) (n : ℕ) (s : Search) (log : List ℚ) :
    loopIter (mock enc) maxBitrate n s log =
      (.ok ((mockStep enc maxBitrate)^[n] (s, log)).1,
        ((mockStep enc maxBitrate)^[n] (s, log)).2) := by
  induction n generalizing s log with
  | zero => rfl
  | succ n ih =>
    rw [loopIter_mock_succ, ih, Function.iterate_succ_apply]
    rfl

theorem searchIter_mock (enc : ℚ → ℚ) (maxBitrate : ℚ) (n : ℕ) :
    searchIter (mock enc) maxBitrate n [] =
      (.ok ((mockStep enc maxBitrate)^[n] (mockStart enc)).1,
        ((mockStep enc maxBitrate)^[n] (mockStart enc)).2) := by
  unfold searchIter
  rw [searchInit_mock]
  exact loopIter_mock enc maxBitrate n _ _

/-- If the bracket after `n` executions of the body is within the tolerance,
then the loop with fuel `n` leaves, in the state after `k ≤ n` executions. -/
theorem searchLoop_mock_exits (enc : ℚ → ℚ) (maxBitrate tol : ℚ) (n : ℕ) :
    ∀ p : Search × List ℚ,
      ((mockStep enc maxBitrate)^[n] p).1.qHigh - ((mockStep enc maxBitrate)^[n] p).1.qLow ≤ tol →
      ∃ k, k ≤ n ∧
        searchLoop (mock enc) maxBitrate tol n p.1 p.2 =
          some (.ok ((mockStep enc maxBitrate)^[k] p).1, ((mockStep enc maxBitrate)^[k] p).2) ∧
        ((mockStep enc maxBitrate)^[k] p).1.qHigh - ((mockStep enc maxBitrate)^[k] p).1.qLow
          ≤ tol := by
  induction n with
  | zero =>
    intro p hp
    exact ⟨0, le_refl 0, searchLoop_done _ _ _ _ _ _ hp, hp⟩
  | succ n ih =>
    intro p hp
    by_cases hg : p.1.qHigh - p.1.qLow ≤ tol
    · exact ⟨0, Nat.zero_le _, searchLoop_done _ _ _ _ _ _ hg, hg⟩
    · rw [Function.iterate_succ_apply] at hp
      obtain ⟨k, hk, hrun, hw⟩ := ih (mockStep enc maxBitrate p) hp
      refine ⟨k + 1, Nat.succ_le_succ hk, ?_, ?_⟩
      · rw [searchLoop_mock_succ _ _ _ _ _ _ (not_le.mp hg), Function.iterate_succ_apply]
        exact hrun
      · rw [Function.iterate_succ_apply]
        exact hw

/-- Whatever the loop returns against a mock encoder is the state after some
number `k ≤ fuel` of executions of the body. -/
theorem searchLoop_mock_reaches (enc : ℚ → ℚ) (maxBitrate tol : ℚ) (fuel : ℕ) :
    ∀ (p : Search × List ℚ) (r : Except Fatal Search × List ℚ),
      searchLoop (mock enc) maxBitrate tol fuel p.1 p.2 = some r →
      ∃ k, k ≤ fuel ∧
        r = (.ok ((mockStep enc maxBitrate)^[k] p).1, ((mockStep enc maxBitrate)^[k] p).2) := by
  induction fuel with
  | zero =>
    intro p r h
    by_cases hg : tol < p.1.qHigh - p.1.qLow
    · rw [searchLoop_zero _ _ _ _ _ hg] at h
      cases h
    · rw [searchLoop_done _ _ _ _ _ _ (not_lt.mp hg)] at h
      exact ⟨0, le_refl 0, (Option.some.inj h).symm⟩
  | succ n ih =>
    intro p r h
    by_cases hg : tol < p.1.qHigh - p.1.qLow
    · rw [searchLoop_mock_succ _ _ _ _ _ _ hg] at h
      obtain ⟨k, hk, hr⟩ := ih (mockStep enc maxBitrate p) r h
      exact ⟨k + 1, Nat.succ_le_succ hk, by rw [Function.iterate_succ_apply]; exact hr⟩
    · rw [searchLoop_done _ _ _ _ _ _ (not_lt.mp hg)] at h
      exact ⟨0, Nat.zero_le _, (Option.some.inj h).symm⟩

theorem targetRatio_pos_lt_one (enc : ℚ → ℚ) (target : ℚ) (h : Brackets enc target) :
    0 < targetRatio enc target ∧ targetRatio enc target < 1 := by
  unfold targetRatio
  rcases h with ⟨h1, h2⟩ | ⟨h1, h2⟩
  · have hd : 0 < enc 10 - enc 1 := by linarith
    exact ⟨div_pos (by linarith) hd, (div_lt_one hd).mpr (by linarith)⟩
  · have hd : enc 10 - enc 1 < 0 := by linarith
    exact ⟨div_pos_of_neg_of_neg (by linarith) hd, (div_lt_one_of_neg hd).mpr (by linarith)⟩

theorem estimate_targetRatio (enc : ℚ → ℚ) (target : ℚ) (s : Search)
    (h : Brackets enc target) (hs : BracketInv enc s) :
    estimate s target = s.qLow + targetRatio enc target * (s.qHigh - s.qLow) := by
  obtain ⟨hl, hh, -⟩ := hs
  have hne : s.bitrateLow ≠ s.bitrateHigh := by
    rw [hl, hh]
    rcases h with ⟨h1, h2⟩ | ⟨h1, h2⟩
    · exact ne_of_lt (by linarith)
    · exact ne_of_gt (by linarith)
  rw [estimate_eq s target hne, hl, hh]
  rfl

theorem estimate_inside (enc : ℚ → ℚ) (target : ℚ) (s : Search)
    (h : Brackets enc target) (hs : BracketInv enc s) :
    s.qLow < estimate s target ∧ estimate s target < s.qHigh := by
  obtain ⟨ht0, ht1⟩ := targetRatio_pos_lt_one enc target h
  rw [estimate_targetRatio enc target s h hs]
  obtain ⟨-, -, -, hlt, -⟩ := hs
  have hw : 0 < s.qHigh - s.qLow := by linarith
  constructor
  · nlinarith [mul_pos ht0 hw]
  · nlinarith [mul_pos (sub_pos.mpr ht1) hw]

/-- One execution of the body keeps the invariant and multiplies the width of
the bracket by `t` or by `1 - t`. -/
theorem mockStep_inv (enc : ℚ → ℚ) (target : ℚ) (p : Search × List ℚ)
    (h : Brackets enc target) (hs : BracketInv enc p.1) :
    BracketInv enc (mockStep enc target p).1 ∧
      ((mockStep enc target p).1.qHigh - (mockStep enc target p).1.qLow
          = targetRatio enc target * (p.1.qHigh - p.1.qLow) ∨
        (mockStep enc target p).1.qHigh - (mockStep enc target p).1.qLow
          = (1 - targetRatio enc target) * (p.1.qHigh - p.1.qLow)) := by
  obtain ⟨hin1, hin2⟩ := estimate_inside enc target p.1 h hs
  have heq := estimate_targetRatio enc target p.1 h hs
  obtain ⟨hl, hh, h1, hlt, h10⟩ := hs
  unfold mockStep narrow
  split_ifs with hgt
  · refine ⟨⟨hl, hh, h1, hin1, by simp only; linarith⟩, Or.inl ?_⟩
    simp only
    rw [heq]
    ring
  · refine ⟨⟨hl, hh, by simp only; linarith, hin2, h10⟩, Or.inr ?_⟩
    simp only
    rw [heq]
    ring

theorem mockStart_inv (enc : ℚ → ℚ) : BracketInv enc (mockStart enc).1 :=
  ⟨rfl, rfl, le_refl 1, by norm_num [mockStart], by norm_num [mockStart]⟩

theorem mockIter_inv (enc : ℚ → ℚ) (target : ℚ) (h : Brackets enc target) (n : ℕ) :
    BracketInv enc ((mockStep enc target)^[n] (mockStart enc)).1 := by
  induction n with
  | zero => exact mockStart_inv enc
  | succ n ih =>
    rw [Function.iterate_succ_apply']
    exact (mockStep_inv enc target _ h ih).1

theorem mockIter_log (enc : ℚ → ℚ) (target : ℚ) (h : Brackets enc target) (n : ℕ) :
    ∀ q ∈ ((mockStep enc target)^[n] (mockStart enc)).2, 1 ≤ q ∧ q ≤ 10 := by
  induction n with
  | zero =>
    intro q hq
    simp only [Function.iterate_zero, id_eq, mockStart, List.mem_cons, List.mem_singleton,
      List.not_mem_nil, or_false] at hq
    rcases hq with rfl | rfl <;> norm_num
  | succ n ih =>
    intro q hq
    rw [Function.iterate_succ_apply'] at hq
    have hinv := mockIter_inv enc target h n
    obtain ⟨hin1, hin2⟩ := estimate_inside enc target _ h hinv
    obtain ⟨-, -, h1, -, h10⟩ := hinv
    simp only [mockStep, List.mem_cons] at hq
    rcases hq with rfl | hq
    · exact ⟨by linarith, by linarith⟩
    · exact ih q hq

theorem mockIter_width (enc : ℚ → ℚ) (target : ℚ) (h : Brackets enc target) (n : ℕ) :
    ((mockStep enc target)^[n] (mockStart enc)).1.qHigh
        - ((mockStep enc target)^[n] (mockStart enc)).1.qLow
      ≤ 9 * (max (targetRatio enc target) (1 - targetRatio enc target)) ^ n := by
  obtain ⟨ht0, ht1⟩ := targetRatio_pos_lt_one enc target h
  induction n with
  | zero => norm_num [mockStart]
  | succ n ih =>
    rw [Function.iterate_succ_apply']
    have hinv := mockIter_inv enc target h n
    have hw : 0 ≤ ((mockStep enc target)^[n] (mockStart enc)).1.qHigh
        - ((mockStep enc target)^[n] (mockStart enc)).1.qLow := by
      obtain ⟨-, -, -, hlt, -⟩ := hinv
      linarith
    have hr0 : 0 ≤ max (targetRatio enc target) (1 - targetRatio enc target) :=
      le_trans ht0.le (le_max_left _ _)
    rw [pow_succ, ← mul_assoc]
    rcases (mockStep_inv enc target _ h hinv).2 with hstep | hstep
    · rw [hstep, mul_comm]
      exact mul_le_mul ih (le_max_left _ _) ht0.le (by positivity)
    · rw [hstep, mul_comm]
      exact mul_le_mul ih (le_max_right _ _) (by linarith) (by positivity)

/-- Sample values of the rounding: `8 / 3` and `1 / 10` round to their
`float64` neighbours, `2 ^ 56 + 8` loses its low bits, the largest finite
value is `2 ^ 1024 - 2 ^ 971` and half a spacing above it overflows, the tie
between `2 ^ -1074` and `2 ^ -1073` goes to the even one, and a negative value
that rounds to zero keeps its sign. -/
theorem round_samples :
    F64.round (8 / 3) = F64.finite (6004799503160661 / 2251799813685248) ∧
      F64.round (1 / 10) = F64.finite (3602879701896397 / 36028797018963968) ∧
      F64.round (2 ^ 56 + 8) = F64.finite (2 ^ 56) ∧
      F64.round (2 ^ 1024 - 2 ^ 970 - 1) = F64.finite (2 ^ 1024 - 2 ^ 971) ∧
      F64.round (2 ^ 1024 - 2 ^ 970) = F64.posInf ∧
      F64.round (3 / 2 ^ 1075) = F64.finite (1 / 2 ^ 1073) ∧
      F64.round (-1 / 2 ^ 1075) = F64.negZero := by
  decide!

/-- Sample values of the division by a zero and of the comparisons with the
results. -/
theorem div_zero_samples :
    (1920000 : F64) / F64.finite 0 = F64.posInf ∧
      (1920000 : F64) / F64.negZero = F64.negInf ∧
      (0 : F64) / F64.finite 0 = F64.nan ∧
      ¬ F64.posInf ≤ (192000 : F64) ∧ ¬ F64.nan ≤ (192000 : F64) ∧
      F64.negInf ≤ (192000 : F64) ∧ ¬ (192000 : F64) < F64.nan := by
  decide!

/-! ## The claims -/

/-- C4: the estimate of the loop body is the value at the target of the unique
line through `(b_low, q_low)` and `(b_high, q_high)`: it equals
`q_low + (q_high - q_low) * (target - b_low) / (b_high - b_low)`, it is `q_low`
at `b_low` and `q_high` at `b_high`, and every line through the two points
takes the same value at the target. -/
theorem estimate_is_interpolation (qLow qHigh bLow bHigh target : ℚ) (h : bLow ≠ bHigh) :
    estimate ⟨qLow, qHigh, bLow, bHigh⟩ target
        = qLow + (qHigh - qLow) * (target - bLow) / (bHigh - bLow) ∧
      estimate ⟨qLow, qHigh, bLow, bHigh⟩ bLow = qLow ∧
      estimate ⟨qLow, qHigh, bLow, bHigh⟩ bHigh = qHigh ∧
      ∀ m c : ℚ, m * bLow + c = qLow → m * bHigh + c = qHigh →
        m * target + c = estimate ⟨qLow, qHigh, bLow, bHigh⟩ target := by
  have hne : bHigh - bLow ≠ 0 := sub_ne_zero.mpr (Ne.symm h)
  refine ⟨?_, ?_, ?_, ?_⟩
  · unfold estimate
    field_simp
    ring
  · unfold estimate
    field_simp
  · unfold estimate
    field_simp
    ring
  · intro m c h1 h2
    have hm : m = (qHigh - qLow) / (bHigh - bLow) := by
      field_simp
      linear_combination h2 - h1
    unfold estimate
    simp only
    rw [← hm]
    linear_combination h1

/-- Witness of C4 on the line through `(192000, 1)` and `(336000, 10)`. -/
theorem estimate_is_interpolation_witness :
    estimate ⟨1, 10, 192000, 336000⟩ 208000
        = 1 + (10 - 1) * (208000 - 192000) / (336000 - 192000) ∧
      estimate ⟨1, 10, 192000, 336000⟩ 192000 = 1 ∧
      estimate ⟨1, 10, 192000, 336000⟩ 336000 = 10 ∧
      ∀ m c : ℚ, m * 192000 + c = 1 → m * 336000 + c = 10 →
        m * 208000 + c = estimate ⟨1, 10, 192000, 336000⟩ 208000 :=
  estimate_is_interpolation 1 10 192000 336000 208000 (by norm_num)

/-- C5, as stated, fails on the code: the division is a `float64` division.
One byte over 3 seconds gives `6004799503160661 / 2 ^ 51`, the `float64`
next to `8 / 3`; `2 ^ 53 + 1` bytes over 1 second give `2 ^ 56` and not
`2 ^ 56 + 8`, since the conversion of `fileSize * 8` to `float64` rounds. -/
theorem getBitrate_exact_counterexample :
    getBitrate (fun _ => some 1) "in.ogg" (F64.finite 3)
        = .ok (F64.finite (6004799503160661 / 2251799813685248)) ∧
      getBitrate (fun _ => some 1) "in.ogg" (F64.finite 3) ≠ .ok (F64.finite (8 * 1 / 3)) ∧
      getBitrate (fun _ => some (2 ^ 53 + 1)) "in.ogg" (F64.finite 1)
        = .ok (F64.finite (2 ^ 56)) ∧
      getBitrate (fun _ => some (2 ^ 53 + 1)) "in.ogg" (F64.finite 1)
        ≠ .ok (F64.finite (8 * (2 ^ 53 + 1) / 1)) := by
  have h1 : F64.ofInt (wrapInt64 (1 * 8)) / F64.finite 3
      = F64.finite (6004799503160661 / 2251799813685248) := by decide!
  have h2 : F64.ofInt (wrapInt64 ((2 ^ 53 + 1) * 8)) / F64.finite 1
      = F64.finite (2 ^ 56) := by decide!
  refine ⟨?_, ?_, ?_, ?_⟩
  · simp only [getBitrate, h1]
  · simp only [getBitrate, h1, ne_eq, Except.ok.injEq, F64.finite.injEq]
    norm_num
  · simp only [getBitrate, h2]
  · simp only [getBitrate, h2, ne_eq, Except.ok.injEq, F64.finite.injEq]
    norm_num

/-- C5, amended: for a file of `size` bytes with `8 * size` below `2 ^ 63`,
`getBitrate` returns the `float64` quotient of `float64(8 * size)` by the
duration, whatever the path and the rest of the file system; for a positive
duration it is exactly `8 * size / duration` whenever `8 * size` and that
quotient are `float64` values (rounding leaves them as they are). -/
theorem getBitrate_float_quotient (files : String → Option ℤ) (filePath : String) (size : ℤ)
    (hfile : files filePath = some size) (hsize : 0 ≤ size) (hfit : 8 * size < 2 ^ 63) :
    (∀ d : F64, getBitrate files filePath d = .ok (F64.ofInt (8 * size) / d)) ∧
      ∀ x : ℚ, 0 < x →
        F64.round (8 * (size : ℚ)) = F64.finite (8 * (size : ℚ)) →
        F64.round (8 * (size : ℚ) / x) = F64.finite (8 * (size : ℚ) / x) →
        getBitrate files filePath (F64.finite x) = .ok (F64.finite (8 * (size : ℚ) / x)) := by
  have hget : ∀ d : F64, getBitrate files filePath d = .ok (F64.ofInt (8 * size) / d) := by
    intro d
    unfold getBitrate
    rw [hfile]
    simp only
    rw [wrapInt64_eq (size * 8) (by linarith) (by linarith), mul_comm]
  refine ⟨hget, ?_⟩
  intro x hx h1 h2
  rw [hget]
  have hof : F64.ofInt (8 * size) = F64.finite (8 * (size : ℚ)) := by
    unfold F64.ofInt
    push_cast
    exact h1
  rw [hof]
  show Except.ok (F64.div (F64.finite (8 * (size : ℚ))) (F64.finite x)) = _
  have hx0 : x ≠ 0 := ne_of_gt hx
  by_cases hz : (8 * (size : ℚ)) = 0
  · have hneg : ¬ x < 0 := not_lt.mpr hx.le
    simp [F64.div, F64.isInf, F64.isZero, F64.isNeg, F64.signedZero, hz, hx0, hneg]
  · simp [F64.div, F64.isInf, F64.isZero, F64.toRat, hz, hx0, h2]

/-- Witness of the amended C5: 1000000 bytes over 10 seconds are 800000 bps. -/
theorem getBitrate_float_quotient_witness :
    getBitrate (fun _ => some 1000000) "in.ogg" (F64.finite 10) = .ok (F64.finite 800000) := by
  have h := (getBitrate_float_quotient (fun _ => some 1000000) "in.ogg" 1000000 rfl
    (by norm_num) (by norm_num)).2 10 (by norm_num) (by decide!) (by decide!)
  rw [h]
  norm_num

/-- C2: against the mock encoder `1000000 / q` with target 100000 and
tolerance 0.0001 the loop leaves after `n < 30` executions of its body (fuel
`n` is enough, less is not), with a bracket no wider than the tolerance. -/
theorem inverse_mock_converges :
    ∃ (n : ℕ) (s : Search) (log : List ℚ), n < 30 ∧
      (∀ fuel, n ≤ fuel →
        search (mock inverseEncoder) 100000 (1 / 10000) fuel [] = some (.ok s, log)) ∧
      (∀ fuel, fuel < n →
        search (mock inverseEncoder) 100000 (1 / 10000) fuel [] = none) ∧
      s.qHigh - s.qLow ≤ 1 / 10000 ∧ log.length = n + 2 := by
  refine ⟨1, ⟨10, 10, 1000000, 100000⟩, [10, 10, 1], by norm_num, ?_, ?_, by norm_num, rfl⟩
  · intro fuel hfuel
    obtain ⟨k, rfl⟩ : ∃ k, fuel = k + 1 := ⟨fuel - 1, by omega⟩
    rw [search_mock, searchLoop_mock_succ _ _ _ _ _ _ (by norm_num)]
    have hq : estimate ⟨1, 10, inverseEncoder 1, inverseEncoder 10⟩ 100000 = 10 := by
      norm_num [estimate, inverseEncoder]
    rw [hq]
    have hn : narrow ⟨1, 10, inverseEncoder 1, inverseEncoder 10⟩ 100000 10 (inverseEncoder 10)
        = ⟨10, 10, 1000000, 100000⟩ := by
      norm_num [narrow, inverseEncoder]
    rw [hn]
    exact searchLoop_done _ _ _ _ _ _ (by norm_num)
  · intro fuel hfuel
    obtain rfl : fuel = 0 := by omega
    rw [search_mock]
    exact searchLoop_zero _ _ _ _ _ (by norm_num)

/-- C7, as stated, fails on the first iteration against the linear encoder
with target 208000: the probe is `(2, 208000)`, the specification replaces
`(q_low, b_low)` by it, the code keeps `b_low = 192000`; the line of the next
iteration therefore does not pass through the newest probe point. -/
theorem update_replaces_bitrate_counterexample :
    searchInit (mock linearEncoder) [] = (.ok ⟨1, 10, 192000, 336000⟩, [10, 1]) ∧
      estimate ⟨1, 10, 192000, 336000⟩ 208000 = 2 ∧ linearEncoder 2 = 208000 ∧
      loopBody (mock linearEncoder) 208000 ⟨1, 10, 192000, 336000⟩ [10, 1]
        = (.ok ⟨2, 10, 192000, 336000⟩, [2, 10, 1]) ∧
      narrowSpec ⟨1, 10, 192000, 336000⟩ 208000 2 (linearEncoder 2)
        = ⟨2, 10, 208000, 336000⟩ ∧
      loopBody (mock linearEncoder) 208000 ⟨1, 10, 192000, 336000⟩ [10, 1]
        ≠ (.ok (narrowSpec ⟨1, 10, 192000, 336000⟩ 208000 2 (linearEncoder 2)), [2, 10, 1]) ∧
      estimate ⟨2, 10, 192000, 336000⟩ (linearEncoder 2) ≠ 2 := by
  have hq : estimate ⟨1, 10, 192000, 336000⟩ 208000 = 2 := by norm_num [estimate]
  have he : linearEncoder 2 = 208000 := by norm_num [linearEncoder]
  have hb : loopBody (mock linearEncoder) 208000 ⟨1, 10, 192000, 336000⟩ [10, 1]
      = (.ok ⟨2, 10, 192000, 336000⟩, [2, 10, 1]) := by
    rw [loopBody_mock, hq, he]
    norm_num [narrow]
  have hs : narrowSpec ⟨1, 10, 192000, 336000⟩ 208000 2 (linearEncoder 2)
      = ⟨2, 10, 208000, 336000⟩ := by
    rw [he]
    norm_num [narrowSpec]
  refine ⟨?_, hq, he, hb, hs, ?_, ?_⟩
  · rw [searchInit_mock]
    norm_num [linearEncoder]
  · rw [hb, hs]
    norm_num
  · rw [he]
    norm_num [estimate]

/-- C7, amended: an execution of the loop body whose probe measures `bitrate`
at the estimate assigns the estimate to `qHigh` when `bitrate` exceeds the
target and to `qLow` otherwise; `bitrateLow` and `bitrateHigh` keep the values
they had, so the next line is fitted through `(bitrateLow, qLow)` and
`(bitrateHigh, qHigh)` with the old bitrates. -/
theorem loopBody_assigns_quality_only {σ : Type} (measure : ℚ → σ → Except Fatal ℚ × σ)
    (target : ℚ) (s : Search) (st st1 : σ) (bitrate : ℚ)
    (h : measure (estimate s target) st = (.ok bitrate, st1)) :
    loopBody measure target s st =
      (.ok (if bitrate > target then ⟨s.qLow, estimate s target, s.bitrateLow, s.bitrateHigh⟩
        else ⟨estimate s target, s.qHigh, s.bitrateLow, s.bitrateHigh⟩), st1) := by
  unfold loopBody
  simp only [h, narrow]

/-- Witness of the amended C7 on the first iteration against the linear
encoder. -/
theorem loopBody_assigns_quality_only_witness :
    loopBody (mock linearEncoder) 208000 ⟨1, 10, 192000, 336000⟩ [10, 1] =
      (.ok (if linearEncoder (estimate ⟨1, 10, 192000, 336000⟩ 208000) > 208000
          then ⟨1, estimate ⟨1, 10, 192000, 336000⟩ 208000, 192000, 336000⟩
          else ⟨estimate ⟨1, 10, 192000, 336000⟩ 208000, 10, 192000, 336000⟩),
        [estimate ⟨1, 10, 192000, 336000⟩ 208000, 10, 1]) :=
  loopBody_assigns_quality_only (mock linearEncoder) 208000 ⟨1, 10, 192000, 336000⟩ [10, 1]
    [estimate ⟨1, 10, 192000, 336000⟩ 208000, 10, 1]
    (linearEncoder (estimate ⟨1, 10, 192000, 336000⟩ 208000)) rfl

/-- C1 fails on the code: the linear encoder is strictly increasing, the
target 208000 lies strictly between its bitrates at qualities 1 and 10, the
tolerance is 0.000001, the loop leaves after nine executions of its body, and
the last encode, at quality `86093450 / 43046721`, has a bitrate above the
target. -/
theorem last_encode_exceeds_target :
    StrictMono linearEncoder ∧ linearEncoder 1 < 208000 ∧ 208000 < linearEncoder 10 ∧
      (0 : ℚ) < 1 / 1000000 ∧ (1 / 1000000 : ℚ) < 9 ∧
      search (mock linearEncoder) 208000 (1 / 1000000) 9 [] =
        some (.ok ⟨2, 86093450 / 43046721, 192000, 336000⟩,
          [86093450 / 43046721, 9565946 / 4782969, 1062890 / 531441, 118106 / 59049,
            13130 / 6561, 1466 / 729, 170 / 81, 26 / 9, 2, 10, 1]) ∧
      ¬ linearEncoder (86093450 / 43046721) ≤ 208000 := by
  refine ⟨?_, by norm_num [linearEncoder], by norm_num [linearEncoder], by norm_num,
    by norm_num, ?_, by norm_num [linearEncoder]⟩
  · intro a b hab
    unfold linearEncoder
    linarith
  · norm_num [search, searchInit, searchLoop, loopBody, mock, narrow, estimate, linearEncoder]

/-- C9: when the target lies strictly between the bitrates measured at
qualities 1 and 10, then for every encoder response and every `n`, in the
state after `n` executions of the loop body the next estimate is
`q_low + t * (q_high - q_low)`, it lies strictly between `q_low` and `q_high`,
the bracket satisfies `1 ≤ q_low < q_high ≤ 10`, and every quality passed to
the encoder so far lies in `[1, 10]`. -/
theorem bracket_invariant (enc : ℚ → ℚ) (target : ℚ) (h : Brackets enc target) (n : ℕ) :
    ∃ (s : Search) (log : List ℚ), searchIter (mock enc) target n [] = (.ok s, log) ∧
      estimate s target = s.qLow + targetRatio enc target * (s.qHigh - s.qLow) ∧
      s.qLow < estimate s target ∧ estimate s target < s.qHigh ∧
      1 ≤ s.qLow ∧ s.qLow < s.qHigh ∧ s.qHigh ≤ 10 ∧
      ∀ q ∈ log, 1 ≤ q ∧ q ≤ 10 := by
  have hinv := mockIter_inv enc target h n
  refine ⟨_, _, searchIter_mock enc target n, estimate_targetRatio enc target _ h hinv,
    (estimate_inside enc target _ h hinv).1, (estimate_inside enc target _ h hinv).2,
    hinv.2.2.1, hinv.2.2.2.1, hinv.2.2.2.2, mockIter_log enc target h n⟩

/-- Witness of C9: the linear encoder, target 208000, after two executions of
the body. -/
theorem bracket_invariant_witness :
    Brackets linearEncoder 208000 ∧
      ∃ (s : Search) (log : List ℚ),
        searchIter (mock linearEncoder) 208000 2 [] = (.ok s, log) ∧
        estimate s 208000 = s.qLow + targetRatio linearEncoder 208000 * (s.qHigh - s.qLow) ∧
        s.qLow < estimate s 208000 ∧ estimate s 208000 < s.qHigh ∧
        1 ≤ s.qLow ∧ s.qLow < s.qHigh ∧ s.qHigh ≤ 10 ∧
        ∀ q ∈ log, 1 ≤ q ∧ q ≤ 10 :=
  ⟨Or.inl (by norm_num [linearEncoder]),
    bracket_invariant linearEncoder 208000 (Or.inl (by norm_num [linearEncoder])) 2⟩

/-- C10: when the target lies strictly between the bitrates measured at
qualities 1 and 10, then for every encoder response each execution of the loop
body multiplies the width of the bracket by `t` or by `1 - t`, the width after
`n` executions is at most `9 * max(t, 1 - t) ^ n`, and for every positive
tolerance some amount of fuel makes the loop leave, with a bracket within the
tolerance. -/
theorem search_terminates (enc : ℚ → ℚ) (target tol : ℚ) (h : Brackets enc target)
    (htol : 0 < tol) :
    (∀ n : ℕ, ∃ (s s1 : Search) (log log1 : List ℚ),
        searchIter (mock enc) target n [] = (.ok s, log) ∧
        searchIter (mock enc) target (n + 1) [] = (.ok s1, log1) ∧
        (s1.qHigh - s1.qLow = targetRatio enc target * (s.qHigh - s.qLow) ∨
          s1.qHigh - s1.qLow = (1 - targetRatio enc target) * (s.qHigh - s.qLow)) ∧
        s.qHigh - s.qLow
          ≤ 9 * (max (targetRatio enc target) (1 - targetRatio enc target)) ^ n) ∧
      ∃ (fuel : ℕ) (s : Search) (log : List ℚ),
        search (mock enc) target tol fuel [] = some (.ok s, log) ∧ s.qHigh - s.qLow ≤ tol := by
  constructor
  · intro n
    refine ⟨_, _, _, _, searchIter_mock enc target n, searchIter_mock enc target (n + 1), ?_,
      mockIter_width enc target h n⟩
    rw [Function.iterate_succ_apply']
    exact (mockStep_inv enc target _ h (mockIter_inv enc target h n)).2
  · obtain ⟨ht0, ht1⟩ := targetRatio_pos_lt_one enc target h
    have hr : max (targetRatio enc target) (1 - targetRatio enc target) < 1 :=
      max_lt ht1 (by linarith)
    obtain ⟨n, hn⟩ := exists_pow_lt_of_lt_one (div_pos htol (by norm_num : (0 : ℚ) < 9)) hr
    have hsmall : 9 * (max (targetRatio enc target) (1 - targetRatio enc target)) ^ n ≤ tol := by
      have := (lt_div_iff₀ (by norm_num : (0 : ℚ) < 9)).mp hn
      linarith
    obtain ⟨k, -, hrun, hw⟩ := searchLoop_mock_exits enc target tol n (mockStart enc)
      (le_trans (mockIter_width enc target h n) hsmall)
    exact ⟨n, _, _, hrun, hw⟩

/-- Witness of C10: the linear encoder, target 208000, tolerance 0.000001. -/
theorem search_terminates_witness :
    Brackets linearEncoder 208000 ∧ (0 : ℚ) < 1 / 1000000 ∧
      ∃ (fuel : ℕ) (s : Search) (log : List ℚ),
        search (mock linearEncoder) 208000 (1 / 1000000) fuel [] = some (.ok s, log) ∧
          s.qHigh - s.qLow ≤ 1 / 1000000 :=
  ⟨Or.inl (by norm_num [linearEncoder]), by norm_num,
    (search_terminates linearEncoder 208000 (1 / 1000000)
      (Or.inl (by norm_num [linearEncoder])) (by norm_num)).2⟩


/-! ### C6: the duration of the probe -/

/-- C6 fails on the code: for a probe whose duration field is the string
`abc`, which the parser rejects, `getDurationSeconds` returns 0 seconds and
no error; in general it returns the value of the parser whatever the error
the parser reports. -/
theorem malformed_duration_is_returned :
    parseDecimal "abc" = (0, false) ∧
      getDurationSeconds (sampleWorld "abc") "in.ogg" = .ok 0 ∧
      ∀ (w : World) (filePath : String) (fields format : List (String × Json)) (d : String),
        w.probe filePath = some fields → fields.lookup "format" = some (Json.object format) →
        format.lookup "duration" = some (Json.string d) →
        getDurationSeconds w filePath = .ok (w.parseFloat d).1 := by
  have h0 : (0 : F64) = F64.finite 0 := by decide!
  have hparse : parseDecimal "abc" = (0, false) := by
    have h : decimalParts "abc" = none := by decide
    simp only [parseDecimal, h, h0]
  refine ⟨hparse, ?_, ?_⟩
  · have hf : ([("format", Json.object [("duration", Json.string "abc")])] :
        List (String × Json)).lookup "format"
          = some (Json.object [("duration", Json.string "abc")]) := by
      simp [List.lookup]
    have hd : ([("duration", Json.string "abc")] : List (String × Json)).lookup "duration"
        = some (Json.string "abc") := by
      simp [List.lookup]
    simp only [getDurationSeconds, sampleWorld, hf, hd, hparse]
  · intro w filePath fields format d hprobe hformat hduration
    simp only [getDurationSeconds, hprobe, hformat, hduration]

/-! ### The loop in `float64` -/

section FloatLoop

variable {σ : Type} (measure : F64 → σ → Except Fatal F64 × σ) (maxBitrate tol : F64)

theorem floatLoop_done (fuel : ℕ) (s : Float64.Search) (st : σ)
    (h : ¬ tol < s.qHigh - s.qLow) :
    Float64.searchLoop measure maxBitrate tol fuel s st = some (.ok s, st) := by
  unfold Float64.searchLoop
  rw [if_neg h]

theorem floatLoop_zero (s : Float64.Search) (st : σ) (h : tol < s.qHigh - s.qLow) :
    Float64.searchLoop measure maxBitrate tol 0 s st = none := by
  unfold Float64.searchLoop
  rw [if_pos h]

theorem floatLoop_succ (n : ℕ) (s : Float64.Search) (st : σ) (h : tol < s.qHigh - s.qLow) :
    Float64.searchLoop measure maxBitrate tol (n + 1) s st =
      match Float64.loopBody measure maxBitrate s st with
      | (.error e, st1) => some (.error e, st1)
      | (.ok s1, st1) => Float64.searchLoop measure maxBitrate tol n s1 st1 := by
  rw [Float64.searchLoop, if_pos h]

theorem floatLoop_error (P : Fatal → Prop)
    (hm : ∀ q st e st1, measure q st = (.error e, st1) → P e) (fuel : ℕ) :
    ∀ (s : Float64.Search) (st st1 : σ) (e : Fatal),
      Float64.searchLoop measure maxBitrate tol fuel s st = some (.error e, st1) → P e := by
  induction fuel with
  | zero =>
    intro s st st1 e h
    by_cases hg : tol < s.qHigh - s.qLow
    · rw [floatLoop_zero _ _ _ _ _ hg] at h
      cases h
    · rw [floatLoop_done _ _ _ _ _ _ hg] at h
      cases h
  | succ n ih =>
    intro s st st1 e h
    by_cases hg : tol < s.qHigh - s.qLow
    · rw [floatLoop_succ _ _ _ _ _ _ hg] at h
      unfold Float64.loopBody at h
      rcases hms : measure (Float64.estimate s maxBitrate) st with ⟨r, st2⟩
      cases r with
      | error e2 =>
        simp only [hms, Option.some.injEq, Prod.mk.injEq] at h
        have he : e2 = e := Except.error.inj h.1
        exact he ▸ hm _ _ _ _ hms
      | ok b =>
        simp only [hms] at h
        exact ih _ _ _ _ h
    · rw [floatLoop_done _ _ _ _ _ _ hg] at h
      cases h

theorem floatSearch_error (P : Fatal → Prop)
    (hm : ∀ q st e st1, measure q st = (.error e, st1) → P e)
    (fuel : ℕ) (st st1 : σ) (e : Fatal)
    (h : Float64.search measure maxBitrate tol fuel st = some (.error e, st1)) : P e := by
  unfold Float64.search Float64.searchInit at h
  rcases h1 : measure 1 st with ⟨r1, st2⟩
  cases r1 with
  | error e1 =>
    simp only [h1, Option.some.injEq, Prod.mk.injEq] at h
    exact (Except.error.inj h.1) ▸ hm _ _ _ _ h1
  | ok b1 =>
    rcases h2 : measure 10 st2 with ⟨r2, st3⟩
    cases r2 with
    | error e2 =>
      simp only [h1, h2, Option.some.injEq, Prod.mk.injEq] at h
      exact (Except.error.inj h.1) ▸ hm _ _ _ _ h2
    | ok b2 =>
      simp only [h1, h2] at h
      exact floatLoop_error measure maxBitrate tol P hm fuel _ _ _ _ h

end FloatLoop

/-! ### C3: the check of the input bitrate -/

theorem getDurationSeconds_error (w : World) (filePath : String) (e : Fatal)
    (h : getDurationSeconds w filePath = .error e) : e = .probe ∨ e = .typeAssertion := by
  unfold getDurationSeconds at h
  split at h
  · exact Or.inl (Except.error.inj h).symm
  · split at h
    · split at h
      · cases h
      · exact Or.inr (Except.error.inj h).symm
    · exact Or.inr (Except.error.inj h).symm

theorem getBitrate_error (files : String → Option ℤ) (filePath : String) (d : F64) (e : Fatal)
    (h : getBitrate files filePath d = .error e) : e = .fileInfo := by
  unfold getBitrate at h
  split at h
  · exact (Except.error.inj h).symm
  · cases h

theorem probeAt_error (w : World) (inputPath : String) (d q : F64) (sys sys1 : Sys) (e : Fatal)
    (h : probeAt w inputPath d q sys = (.error e, sys1)) : e = .convert ∨ e = .fileInfo := by
  unfold probeAt convert at h
  cases hf : w.ffmpeg inputPath q with
  | none =>
    simp only [hf, Prod.mk.injEq] at h
    exact Or.inl (Except.error.inj h.1).symm
  | some size =>
    simp only [hf, Prod.mk.injEq] at h
    exact Or.inr (getBitrate_error _ _ _ _ h.1)

/-- The body of `main` ends with the bitrate-too-low panic exactly when the
measured input bitrate is at most 192000, and then nothing has changed. -/
theorem mainBody_tooLow (fuel : ℕ) (w : World) (cli : CLI) (sys sys1 : Sys) :
    mainBody fuel w cli sys = some (.error .inputBitrateTooLow, sys1) ↔
      sys1 = sys ∧ ∃ d r, getDurationSeconds w cli.InputPath = .ok d ∧
        getBitrate sys.files cli.InputPath d = .ok r ∧ r ≤ 192000 := by
  have hmin : F64.ofInt minInputBitrateBps = 192000 := by decide!
  cases hdur : getDurationSeconds w cli.InputPath with
  | error e =>
    constructor
    · intro h
      simp only [mainBody, hdur, Option.some.injEq, Prod.mk.injEq] at h
      have he : e = .inputBitrateTooLow := Except.error.inj h.1
      rcases getDurationSeconds_error _ _ _ hdur with h1 | h1 <;> rw [h1] at he <;> cases he
    · rintro ⟨-, d, r, hd, -⟩
      cases hd
  | ok d =>
    cases hbr : getBitrate sys.files cli.InputPath d with
    | error e =>
      constructor
      · intro h
        simp only [mainBody, hdur, hbr, Option.some.injEq, Prod.mk.injEq] at h
        have he : e = .inputBitrateTooLow := Except.error.inj h.1
        rw [getBitrate_error _ _ _ _ hbr] at he
        cases he
      · rintro ⟨-, d2, r, hd, hr, -⟩
        rw [← Except.ok.inj hd, hbr] at hr
        cases hr
    | ok r =>
      by_cases hle : r ≤ 192000
      · constructor
        · intro h
          simp only [mainBody, hdur, hbr, hmin, if_pos hle, Option.some.injEq, Prod.mk.injEq,
            true_and] at h
          exact ⟨h.symm, d, r, rfl, hbr, hle⟩
        · rintro ⟨rfl, -⟩
          simp only [mainBody, hdur, hbr, hmin, if_pos hle]
      · constructor
        · intro h
          exfalso
          simp only [mainBody, hdur, hbr, hmin, if_neg hle, initWorkspace] at h
          by_cases hmk : w.mkdirAll = true
          · simp only [hmk, if_true] at h
            rcases hs : Float64.search (probeAt w cli.InputPath d) (F64.ofInt cli.MaxBitrate)
                cli.MaxQualityDifference fuel ⟨sys.events ++ [Event.mkdirAll], sys.files⟩
              with _ | ⟨res, sys2⟩
            · simp only [hs] at h
              cases h
            · cases res with
              | error e =>
                simp only [hs, Option.some.injEq, Prod.mk.injEq] at h
                have he : e = .inputBitrateTooLow := Except.error.inj h.1
                have hP := floatSearch_error (probeAt w cli.InputPath d) _ _
                  (fun x => x = .convert ∨ x = .fileInfo)
                  (fun q st e2 st1 hq => probeAt_error w cli.InputPath d q st st1 e2 hq)
                  _ _ _ _ hs
                rcases hP with h1 | h1 <;> rw [h1] at he <;> cases he
              | ok s =>
                simp only [hs, Option.some.injEq, moveOutput] at h
                by_cases hrn : w.rename = true
                · simp only [hrn, if_true, Prod.mk.injEq] at h
                  cases h.1
                · simp only [hrn, Bool.false_eq_true, if_false, Prod.mk.injEq] at h
                  cases h.1
          · simp only [hmk, Bool.false_eq_true, if_false, Option.some.injEq, Prod.mk.injEq] at h
            cases h.1
        · rintro ⟨-, d2, r2, hd, hr, hle2⟩
          rw [← Except.ok.inj hd, hbr] at hr
          rw [Except.ok.inj hr] at hle
          exact absurd hle2 hle

/-- C3: for every input, `main` ends with the bitrate-too-low panic exactly
when the probe and the stat of the input succeed and the measured input
bitrate, a `float64`, is at most 192000 bps (so 192000 itself is rejected, and
a larger value, an infinity or NaN is not); when it does, the only effect
performed is the deferred `os.RemoveAll`: no encode has run and `os.MkdirAll`
was not called. -/
theorem rejects_low_input_bitrate (fuel : ℕ) (w : World) (cli : CLI) (sys : Sys) :
    ((∃ sys1, main fuel w cli sys = some (.error .inputBitrateTooLow, sys1)) ↔
        ∃ d r, getDurationSeconds w cli.InputPath = .ok d ∧
          getBitrate sys.files cli.InputPath d = .ok r ∧ r ≤ 192000) ∧
      ∀ sys1, main fuel w cli sys = some (.error .inputBitrateTooLow, sys1) →
        sys1.events = sys.events ++ [Event.removeAll] := by
  have key : ∀ sys1, main fuel w cli sys = some (.error .inputBitrateTooLow, sys1) →
      mainBody fuel w cli sys = some (.error .inputBitrateTooLow, sys) ∧
        sys1 = clearWorkspace sys := by
    intro sys1 h
    unfold main at h
    rcases hb : mainBody fuel w cli sys with _ | ⟨res, sys2⟩
    · rw [hb] at h
      cases h
    · rw [hb] at h
      simp only [Option.map_some', Option.some.injEq, Prod.mk.injEq] at h
      obtain ⟨h1, h2⟩ := h
      subst h1
      have hsys := ((mainBody_tooLow fuel w cli sys sys2).mp hb).1
      subst hsys
      exact ⟨rfl, h2.symm⟩
  refine ⟨⟨?_, ?_⟩, ?_⟩
  · rintro ⟨sys1, h⟩
    exact ((mainBody_tooLow fuel w cli sys sys).mp (key sys1 h).1).2
  · intro h
    refine ⟨clearWorkspace sys, ?_⟩
    unfold main
    rw [(mainBody_tooLow fuel w cli sys sys).mpr ⟨rfl, h⟩]
    rfl
  · intro sys1 h
    rw [(key sys1 h).2]
    rfl

theorem sampleWorld_lookup (duration : String) :
    ([("format", Json.object [("duration", Json.string duration)])] :
        List (String × Json)).lookup "format"
          = some (Json.object [("duration", Json.string duration)]) ∧
      ([("duration", Json.string duration)] : List (String × Json)).lookup "duration"
        = some (Json.string duration) := by
  constructor <;> simp [List.lookup]

theorem sampleWorld_duration_ten : getDurationSeconds (sampleWorld "10") "in.ogg" = .ok 10 := by
  have hp : decimalParts "10" = some (false, 10, 0) := by decide
  have hv : (if (10 : ℕ) = 0 then F64.signedZero false
      else F64.round ((if false = true then -1 else 1) * ((10 : ℕ) : ℚ) / 10 ^ 0)) = 10 := by
    decide!
  simp only [getDurationSeconds, sampleWorld, (sampleWorld_lookup "10").1,
    (sampleWorld_lookup "10").2, parseDecimal, hp, hv]

theorem sampleWorld_duration_one : getDurationSeconds (sampleWorld "1") "in.ogg" = .ok 1 := by
  have hp : decimalParts "1" = some (false, 1, 0) := by decide
  have hv : (if (1 : ℕ) = 0 then F64.signedZero false
      else F64.round ((if false = true then -1 else 1) * ((1 : ℕ) : ℚ) / 10 ^ 0)) = 1 := by
    decide!
  simp only [getDurationSeconds, sampleWorld, (sampleWorld_lookup "1").1,
    (sampleWorld_lookup "1").2, parseDecimal, hp, hv]

theorem sampleWorld_duration_malformed :
    getDurationSeconds (sampleWorld "abc") "in.ogg" = .ok (F64.finite 0) := by
  have hp : decimalParts "abc" = none := by decide
  simp only [getDurationSeconds, sampleWorld, (sampleWorld_lookup "abc").1,
    (sampleWorld_lookup "abc").2, parseDecimal, hp]

theorem sampleSys_bitrate (size : ℤ) (d : F64) :
    getBitrate (sampleSys size).files "in.ogg" d = .ok (F64.ofInt (wrapInt64 (size * 8)) / d) := by
  simp only [getBitrate, sampleSys, if_true]

/-- Witness of C3: with a duration of 10 seconds an input of 240000 bytes
measures exactly 192000 bps and is rejected, the deferred removal being the
only effect, and an input of 240001 bytes is not rejected, whatever the fuel;
with the duration string `abc`, read as 0 seconds, the input measures `+Inf`
and is not rejected. -/
theorem rejects_low_input_bitrate_witness :
    getBitrate (sampleSys 240000).files "in.ogg" 10 = .ok 192000 ∧
      (∃ sys1, main 0 (sampleWorld "10") (defaultCLI "in.ogg") (sampleSys 240000)
        = some (.error .inputBitrateTooLow, sys1)) ∧
      (∀ sys1, main 0 (sampleWorld "10") (defaultCLI "in.ogg") (sampleSys 240000)
          = some (.error .inputBitrateTooLow, sys1) → sys1.events = [Event.removeAll]) ∧
      (∀ fuel, ¬ ∃ sys1, main fuel (sampleWorld "10") (defaultCLI "in.ogg") (sampleSys 240001)
        = some (.error .inputBitrateTooLow, sys1)) ∧
      getBitrate (sampleSys 240001).files "in.ogg" (F64.finite 0) = .ok F64.posInf ∧
      ∀ fuel, ¬ ∃ sys1, main fuel (sampleWorld "abc") (defaultCLI "in.ogg") (sampleSys 240001)
        = some (.error .inputBitrateTooLow, sys1) := by
  have hbr : getBitrate (sampleSys 240000).files "in.ogg" 10 = .ok 192000 := by
    rw [sampleSys_bitrate]
    have h : F64.ofInt (wrapInt64 (240000 * 8)) / 10 = (192000 : F64) := by decide!
    rw [h]
  have hinf : getBitrate (sampleSys 240001).files "in.ogg" (F64.finite 0) = .ok F64.posInf := by
    rw [sampleSys_bitrate]
    have h : F64.ofInt (wrapInt64 (240001 * 8)) / F64.finite 0 = F64.posInf := by decide!
    rw [h]
  have hrej := rejects_low_input_bitrate 0 (sampleWorld "10") (defaultCLI "in.ogg")
    (sampleSys 240000)
  refine ⟨hbr, hrej.1.mpr ⟨10, 192000, sampleWorld_duration_ten, hbr, by decide!⟩, ?_, ?_,
    hinf, ?_⟩
  · intro sys1 h
    exact hrej.2 sys1 h
  · intro fuel hex
    obtain ⟨d, r, hd, hr, hle⟩ := (rejects_low_input_bitrate fuel (sampleWorld "10")
      (defaultCLI "in.ogg") (sampleSys 240001)).1.mp hex
    have hd2 : getDurationSeconds (sampleWorld "10") "in.ogg" = .ok d := hd
    rw [sampleWorld_duration_ten] at hd2
    have hr2 : getBitrate (sampleSys 240001).files "in.ogg" d = .ok r := hr
    rw [← Except.ok.inj hd2, sampleSys_bitrate] at hr2
    rw [← Except.ok.inj hr2] at hle
    exact absurd hle (by decide!)
  · intro fuel hex
    obtain ⟨d, r, hd, hr, hle⟩ := (rejects_low_input_bitrate fuel (sampleWorld "abc")
      (defaultCLI "in.ogg") (sampleSys 240001)).1.mp hex
    have hd2 : getDurationSeconds (sampleWorld "abc") "in.ogg" = .ok d := hd
    rw [sampleWorld_duration_malformed] at hd2
    have hr2 : getBitrate (sampleSys 240001).files "in.ogg" d = .ok r := hr
    rw [← Except.ok.inj hd2, hinf] at hr2
    rw [← Except.ok.inj hr2] at hle
    exact absurd hle (by decide!)

/-! ### C8: a run that never leaves the loop -/

theorem stuckEncoder_one : stuckEncoder 1 = 163840 := by decide!

theorem stuckEncoder_ten : stuckEncoder 10 = 311296 := by decide!

theorem stuck_estimate : Float64.estimate stuckSearch (F64.ofInt 163840) = 1 := by decide!

theorem stuck_narrow :
    Float64.narrow stuckSearch (F64.ofInt 163840) 1 163840 = stuckSearch := by decide!

theorem stuck_guard : F64.round (1 / 1000000) < stuckSearch.qHigh - stuckSearch.qLow := by
  decide!

theorem stuck_mock_init (log : List F64) :
    Float64.searchInit (Float64.mock stuckEncoder) log = (.ok stuckSearch, 10 :: 1 :: log) := by
  simp only [Float64.searchInit, Float64.mock, stuckEncoder_one, stuckEncoder_ten, stuckSearch]

theorem stuck_mock_body (log : List F64) :
    Float64.loopBody (Float64.mock stuckEncoder) (F64.ofInt 163840) stuckSearch log
      = (.ok stuckSearch, 1 :: log) := by
  simp only [Float64.loopBody, Float64.mock, stuck_estimate, stuckEncoder_one, stuck_narrow]

theorem stuck_mock_loop (fuel : ℕ) :
    ∀ log : List F64,
      Float64.searchLoop (Float64.mock stuckEncoder) (F64.ofInt 163840)
        (F64.round (1 / 1000000)) fuel stuckSearch log = none := by
  induction fuel with
  | zero =>
    intro log
    exact floatLoop_zero _ _ _ _ _ stuck_guard
  | succ n ih =>
    intro log
    rw [floatLoop_succ _ _ _ _ _ _ stuck_guard, stuck_mock_body]
    exact ih _

theorem stuck_mock_iter (n : ℕ) :
    ∀ log : List F64, ∃ log1,
      Float64.loopIter (Float64.mock stuckEncoder) (F64.ofInt 163840) n stuckSearch log
        = (.ok stuckSearch, log1) := by
  induction n with
  | zero =>
    intro log
    exact ⟨log, rfl⟩
  | succ n ih =>
    intro log
    rw [Float64.loopIter, stuck_mock_body]
    exact ih _

theorem stuck_probe_one (sys : Sys) :
    probeAt (sampleWorld "1") "in.ogg" 1 1 sys
      = (.ok 163840, ⟨sys.events ++ [Event.convert 1],
          Function.update sys.files tmpFile (some 20480)⟩) := by
  have hsize : ⌊2048 * (1 : F64).toRat + 18432⌋ = 20480 := by decide!
  have hbit : F64.ofInt (wrapInt64 (20480 * 8)) / 1 = (163840 : F64) := by decide!
  simp only [probeAt, convert, sampleWorld, hsize, getBitrate, Function.update_same, hbit]

theorem stuck_probe_ten (sys : Sys) :
    probeAt (sampleWorld "1") "in.ogg" 1 10 sys
      = (.ok 311296, ⟨sys.events ++ [Event.convert 10],
          Function.update sys.files tmpFile (some 38912)⟩) := by
  have hsize : ⌊2048 * (10 : F64).toRat + 18432⌋ = 38912 := by decide!
  have hbit : F64.ofInt (wrapInt64 (38912 * 8)) / 1 = (311296 : F64) := by decide!
  simp only [probeAt, convert, sampleWorld, hsize, getBitrate, Function.update_same, hbit]

theorem stuck_main_loop (fuel : ℕ) :
    ∀ sys : Sys,
      Float64.searchLoop (probeAt (sampleWorld "1") "in.ogg" 1) (F64.ofInt 163840)
        (F64.round (1 / 1000000)) fuel stuckSearch sys = none := by
  induction fuel with
  | zero =>
    intro sys
    exact floatLoop_zero _ _ _ _ _ stuck_guard
  | succ n ih =>
    intro sys
    rw [floatLoop_succ _ _ _ _ _ _ stuck_guard]
    simp only [Float64.loopBody, stuck_estimate, stuck_probe_one, stuck_narrow]
    exact ih _

/-- C8: the loop has no iteration cap and can run forever.  In `float64`,
against the encoder `16384 * q + 147456` with the target 163840, its bitrate
at quality 1, and the tolerance 0.000001, every estimate is the quality 1
again and the bracket stays `(1, 10)`: the search returns for no amount of
fuel, after every number `n` of executions of the loop body the bracket is
still wider than the tolerance, and `main` itself, run with `-b 163840` on a
one-second input whose encodes have these bitrates, returns for no amount of
fuel. -/
theorem search_can_run_forever :
    (0 : F64) < F64.ofInt 163840 ∧ (0 : F64) < F64.round (1 / 1000000) ∧
      (∀ fuel : ℕ, Float64.search (Float64.mock stuckEncoder) (F64.ofInt 163840)
        (F64.round (1 / 1000000)) fuel [] = none) ∧
      (∀ n : ℕ, ∃ log : List F64,
        Float64.searchIter (Float64.mock stuckEncoder) (F64.ofInt 163840) n []
          = (.ok stuckSearch, log)) ∧
      F64.round (1 / 1000000) < stuckSearch.qHigh - stuckSearch.qLow ∧
      ∀ fuel : ℕ, main fuel (sampleWorld "1") stuckCLI (sampleSys 40000) = none := by
  refine ⟨by decide!, by decide!, ?_, ?_, stuck_guard, ?_⟩
  · intro fuel
    simp only [Float64.search, stuck_mock_init]
    exact stuck_mock_loop fuel _
  · intro n
    simp only [Float64.searchIter, stuck_mock_init]
    exact stuck_mock_iter n _
  · intro fuel
    have hbr : getBitrate (sampleSys 40000).files "in.ogg" 1 = .ok 320000 := by
      rw [sampleSys_bitrate]
      have h : F64.ofInt (wrapInt64 (40000 * 8)) / 1 = (320000 : F64) := by decide!
      rw [h]
    have hguard : ¬ (320000 : F64) ≤ F64.ofInt minInputBitrateBps := by decide!
    have hinit : Float64.searchInit (probeAt (sampleWorld "1") "in.ogg" 1)
        ⟨[Event.mkdirAll], (sampleSys 40000).files⟩
        = (.ok stuckSearch, ⟨[Event.mkdirAll, Event.convert 1, Event.convert 10],
            Function.update (Function.update (sampleSys 40000).files tmpFile (some 20480))
              tmpFile (some 38912)⟩) := by
      simp only [Float64.searchInit, stuck_probe_one, stuck_probe_ten, stuckSearch,
        List.cons_append, List.nil_append]
    have hbody : mainBody fuel (sampleWorld "1") stuckCLI (sampleSys 40000) = none := by
      simp only [mainBody, stuckCLI, sampleWorld_duration_one, hbr, if_neg hguard,
        initWorkspace, Float64.search]
      have hmk : (sampleWorld "1").mkdirAll = true := rfl
      have hev : (sampleSys 40000).events ++ [Event.mkdirAll] = [Event.mkdirAll] := rfl
      simp only [hmk, if_true, hev, hinit, stuck_main_loop]
    simp only [main, hbody, Option.map_none']

end Rankablizer
